import Mathlib

/-!
# Verification of the 360EVO waitlist form core (`src/script.js`)

This file embeds the validation + dual-path submission pipeline of the
waitlist form in Lean 4 and proves the specified properties about it.

* The field validators (`validateField`, `isValidEmail`, `isValidName`) are
  embedded via a small verified regular-expression matcher over character
  classes (Brzozowski derivatives), since the source expresses both the
  email and the name check as JavaScript regexes.
* The submission pipeline (`submitToWaitlist`, `fallbackToLocalStorage`) and
  the submit handler (`handleSubmit`) are embedded as pure functions over an
  explicit environment (remote endpoint behaviour, local-store state, clock)
  with thrown JavaScript exceptions modelled by `Except String`; a
  `tryCatch` combinator models the `try { … } catch { … }` blocks.
-/

namespace EVO

/-! ## A small regular-expression theory over character classes

The source uses the JavaScript regexes `/^[^\s@]+@[^\s@]+\.[^\s@]+$/` and
`/^[a-zA-Z\s'-]+$/`; both are anchored concatenations of character classes,
`+`-repetitions and literal characters.  We embed them with an abstract
syntax whose atoms are character classes (`cls p`), a standard derivative
matcher, and an inductive matching semantics proved equivalent. -/

/-- Regular expressions whose atoms are character classes. -/
inductive Regex where
  | eps : Regex
  | cls : (Char → Bool) → Regex
  | alt : Regex → Regex → Regex
  | cat : Regex → Regex → Regex
  | star : Regex → Regex

/-- The regex matching no string at all (the empty character class). -/
def Regex.fail : Regex := .cls (fun _ => false)

/-- Does the regex accept the empty string? -/
def Regex.nullable : Regex → Bool
  | .eps => true
  | .cls _ => false
  | .alt r₁ r₂ => r₁.nullable || r₂.nullable
  | .cat r₁ r₂ => r₁.nullable && r₂.nullable
  | .star _ => true

/-- Brzozowski derivative of a regex by one character. -/
def Regex.deriv : Regex → Char → Regex
  | .eps, _ => .fail
  | .cls p, c => if p c then .eps else .fail
  | .alt r₁ r₂, c => .alt (r₁.deriv c) (r₂.deriv c)
  | .cat r₁ r₂, c =>
      if r₁.nullable then .alt (.cat (r₁.deriv c) r₂) (r₂.deriv c)
      else .cat (r₁.deriv c) r₂
  | .star r, c => .cat (r.deriv c) (.star r)

/-- Executable anchored matcher: fold the derivative over the string. -/
def Regex.rmatch (r : Regex) (s : List Char) : Bool :=
  (s.foldl Regex.deriv r).nullable

/-- Declarative matching semantics. -/
inductive RMatches : Regex → List Char → Prop where
  | eps : RMatches .eps []
  | cls {p : Char → Bool} {c : Char} : p c = true → RMatches (.cls p) [c]
  | altL {r₁ r₂ s} : RMatches r₁ s → RMatches (.alt r₁ r₂) s
  | altR {r₁ r₂ s} : RMatches r₂ s → RMatches (.alt r₁ r₂) s
  | cat {r₁ r₂ s₁ s₂} : RMatches r₁ s₁ → RMatches r₂ s₂ →
      RMatches (.cat r₁ r₂) (s₁ ++ s₂)
  | starNil {r} : RMatches (.star r) []
  | starCat {r s₁ s₂} : RMatches r s₁ → RMatches (.star r) s₂ →
      RMatches (.star r) (s₁ ++ s₂)

/-- One-or-more repetitions, the `+` postfix of the source regexes. -/
def Regex.plus (r : Regex) : Regex := .cat r (.star r)

/-! ## The validators (`validateField`, `isValidEmail`, `isValidName`)

`src/script.js` lines 22–65.  The email regex is
`/^[^\s@]+@[^\s@]+\.[^\s@]+$/` and the name regex is `/^[a-zA-Z\s'-]+$/`;
both are encoded literally as `Regex` values.  `validateField` mirrors the
sequential `errorMessage` assignments of the source; it returns
`some errorMessage` when the source shows an inline error and returns
`false`, and `none` when the source returns `true`. -/

/-- JavaScript `String.prototype.trim`: drop leading and trailing
whitespace.  (Defined structurally over the character list so that it
evaluates by kernel reduction.) -/
def jsTrim (s : String) : String :=
  ⟨((s.data.dropWhile Char.isWhitespace).reverse.dropWhile Char.isWhitespace).reverse⟩

/-- JavaScript `String.prototype.toLowerCase` (ASCII case folding). -/
def jsToLower (s : String) : String := ⟨s.data.map Char.toLower⟩

/-- The character class `[^\s@]`: neither whitespace nor `@`. -/
def emailChar (c : Char) : Bool := !c.isWhitespace && !(c == '@')

/-- The character class `[a-zA-Z\s'-]`: ASCII letter, whitespace,
apostrophe (codepoint 39) or hyphen. -/
def nameChar (c : Char) : Bool :=
  c.isAlpha || c.isWhitespace || c == Char.ofNat 39 || c == '-'

/-- The anchored regex `/^[^\s@]+@[^\s@]+\.[^\s@]+$/`. -/
def emailRegex : Regex :=
  .cat (Regex.plus (.cls emailChar))
    (.cat (.cls (fun c => c == '@'))
      (.cat (Regex.plus (.cls emailChar))
        (.cat (.cls (fun c => c == '.'))
          (Regex.plus (.cls emailChar)))))

/-- The anchored regex `/^[a-zA-Z\s'-]+$/`. -/
def nameRegex : Regex := Regex.plus (.cls nameChar)

/-- `isValidEmail` (`script.js` line 57): test the email regex. -/
def isValidEmail (email : String) : Bool := emailRegex.rmatch email.data

/-- `isValidName` (`script.js` line 62): test the name regex. -/
def isValidName (name : String) : Bool := nameRegex.rmatch name.data

/-- `validateField` (`script.js` line 22): trim the value, then run the
required / email / personal-name checks in source order, each later check
overwriting `errorMessage`.  `some msg` ⟺ the source shows `msg` inline and
returns `false`. -/
def validateField (fieldName : String) (rawValue : String) : Option String :=
  let value := jsTrim rawValue
  let errorMessage := ""
  let errorMessage := if value = "" then "This field is required" else errorMessage
  let errorMessage :=
    if fieldName = "email" ∧ value ≠ "" ∧ ¬ isValidEmail value then
      "Please enter a valid email address"
    else errorMessage
  let errorMessage :=
    if (fieldName = "firstName" ∨ fieldName = "lastName") ∧ value ≠ "" ∧ ¬ isValidName value then
      "Please use letters only"
    else errorMessage
  if errorMessage ≠ "" then some errorMessage else none

/-- The structural shape the spec ascribes to valid emails: nonempty run of
non-space-non-`@` characters, `@`, nonempty run, `.`, nonempty run. -/
def EmailShape (s : String) : Prop :=
  ∃ a b c : List Char,
    s.data = a ++ '@' :: (b ++ '.' :: c) ∧
    a ≠ [] ∧ b ≠ [] ∧ c ≠ [] ∧
    (∀ ch ∈ a, emailChar ch = true) ∧
    (∀ ch ∈ b, emailChar ch = true) ∧
    (∀ ch ∈ c, emailChar ch = true)

/-! ## Data model

`FormSnapshot` is the object built by `collectFormData` (`script.js`
line 136); `WaitlistEntry` is the object pushed by `fallbackToLocalStorage`
(line 187): the snapshot spread plus `id` and `submittedAt`.  The local
store (`localStorage` key `360evo_waitlist`) is modelled by `StoreState`:
absent (`getItem` returns `null`), a JSON-encoded entry list, or a stored
value on which the read-parse sequence throws (`corrupt`). -/

structure FormSnapshot where
  firstName : String
  lastName : String
  email : String
  company : String
  interest : String
  newsletter : Bool
  timestamp : String
  userAgent : String
  referrer : String
deriving DecidableEq, Repr

/-- The raw form control values read through `FormData`.  `newsletter` is
`some "on"` when the checkbox is checked (`FormData.get` returns `null`
for an unchecked checkbox). -/
structure RawForm where
  firstName : String
  lastName : String
  email : String
  company : String
  interest : String
  newsletter : Option String
deriving DecidableEq, Repr

/-- Ambient browser values read by `collectFormData`: `new
Date().toISOString()`, `navigator.userAgent`, `document.referrer`. -/
structure ClientEnv where
  nowIso : String
  userAgent : String
  referrer : String
deriving DecidableEq, Repr

/-- `collectFormData` (`script.js` line 136): trim the text fields, trim and
lower-case the email, decode the checkbox, and attach timestamp / user
agent / referrer (`document.referrer || 'Direct'`). -/
def collectFormData (cenv : ClientEnv) (raw : RawForm) : FormSnapshot :=
  { firstName := jsTrim raw.firstName
    lastName := jsTrim raw.lastName
    email := jsToLower (jsTrim raw.email)
    company := jsTrim raw.company
    interest := raw.interest
    newsletter := raw.newsletter == some "on"
    timestamp := cenv.nowIso
    userAgent := cenv.userAgent
    referrer := if cenv.referrer = "" then "Direct" else cenv.referrer }

/-- A stored waitlist entry: `{...data, id: Date.now().toString(),
submittedAt: new Date().toISOString()}` (`script.js` line 187). -/
structure WaitlistEntry where
  data : FormSnapshot
  id : String
  submittedAt : String
deriving DecidableEq, Repr

/-- The state of the `360evo_waitlist` key in `localStorage`.
`corrupt raw m` is a stored value on which `JSON.parse` (or the subsequent
use of the parse result as an array) throws an error with message `m`. -/
inductive StoreState where
  | absent
  | entries (l : List WaitlistEntry)
  | corrupt (raw : String) (errMsg : String)
deriving DecidableEq, Repr

/-- The entry list obtained by a successful read-parse of the store
(`JSON.parse(localStorage.getItem('360evo_waitlist') || '[]')`). -/
def storeEntries : StoreState → List WaitlistEntry
  | .absent => []
  | .entries l => l
  | .corrupt _ _ => []

/-- The `{success, message?, data?}` objects returned by
`submitToWaitlist` and `fallbackToLocalStorage`.  The server payload is
kept opaque as a string identity. -/
structure SubmissionResult where
  success : Bool
  message : Option String := none
  data : Option String := none
deriving DecidableEq, Repr

/-- Environment of one fallback attempt: `Date.now().toString()`, `new
Date().toISOString()`, and whether `localStorage.setItem` throws (`some m`
= throws an error with message `m`, e.g. quota exceeded). -/
structure FallbackEnv where
  idNow : String
  nowIso : String
  setFail : Option String
deriving DecidableEq, Repr

/-- A parsed JSON response body: its `.message` field when it is present
as a string, and an opaque identity for the whole value. -/
structure JsonBody where
  message : Option String := none
  payload : String := ""
deriving DecidableEq, Repr

/-- Behaviour of `fetch('/tables/waitlist', …)` on one submission: the
promise rejects with an error message, or a response arrives with given
`ok` flag and status, whose `.json()` either resolves to a body or rejects
with a parse-error message. -/
inductive FetchResult where
  | reject (errMsg : String)
  | resp (ok : Bool) (status : Nat) (body : Except String JsonBody)

/-! ## The submission pipeline

Thrown JavaScript exceptions are modelled by `Except.error m` paired with
the local-store state at throw time (the store survives a throw);
`tryCatch` models `try { … } catch (e) { … }`. -/

/-- `try { body } catch (e) { handler e }`, threading the store state. -/
def tryCatch (body : Except String α × StoreState)
    (handler : String → StoreState → Except String α × StoreState) :
    Except String α × StoreState :=
  match body with
  | (.ok a, st) => (.ok a, st)
  | (.error e, st) => handler e st

/-- JavaScript `x || d` for a possibly-absent, possibly-empty string
field (`undefined` and `""` are falsy). -/
def jsOrElse (m : Option String) (d : String) : String :=
  match m with
  | some s => if s = "" then d else s
  | none => d

/-- The `try` block of `fallbackToLocalStorage` (`script.js` lines
177–196): read-parse the store, reject a duplicate email, push the new
entry, write the store back.  `Except.error m` is a thrown exception. -/
def fallbackTryBlock (env : FallbackEnv) (data : FormSnapshot) (store : StoreState) :
    Except String SubmissionResult × StoreState :=
  match store with
  | .corrupt raw m => (.error m, .corrupt raw m)
  | _ =>
    let waitlist := storeEntries store
    if waitlist.any (fun entry => entry.data.email == data.email) then
      (.ok { success := false, message := some "This email is already on our waitlist." }, store)
    else
      let waitlist := waitlist ++ [{ data := data, id := env.idNow, submittedAt := env.nowIso }]
      match env.setFail with
      | some m => (.error m, store)
      | none =>
          (.ok { success := true, message := some "Successfully added to waitlist (offline mode)" },
           .entries waitlist)

/-- `fallbackToLocalStorage` (`script.js` line 176): the try block wrapped
in its catch, which converts any thrown error into a
`{success:false, message:'Failed to save waitlist entry: …'}` value. -/
def fallbackToLocalStorage (env : FallbackEnv) (data : FormSnapshot) (store : StoreState) :
    Except String SubmissionResult × StoreState :=
  tryCatch (fallbackTryBlock env data store)
    (fun m st =>
      (.ok { success := false, message := some ("Failed to save waitlist entry: " ++ m) }, st))

/-- The `try` block of `submitToWaitlist` (`script.js` lines 152–167):
`fetch`, the `response.ok` check (throwing a synthesized error message for
a non-ok status), and `response.json()` for the success payload. -/
def submitTryBlock (fr : FetchResult) : Except String SubmissionResult :=
  match fr with
  | .reject m => .error m
  | .resp ok status body =>
      if ok then
        match body with
        | .error m => .error m
        | .ok j => .ok { success := true, data := some j.payload }
      else
        let errorData : JsonBody :=
          match body with
          | .ok j => j
          | .error _ => { message := some "Network response was not ok" }
        .error (jsOrElse errorData.message ("HTTP error! status: " ++ toString status))

/-- `submitToWaitlist` (`script.js` line 151): attempt the remote
submission; any thrown error is caught and routed to
`fallbackToLocalStorage`. -/
def submitToWaitlist (fr : FetchResult) (env : FallbackEnv) (data : FormSnapshot)
    (store : StoreState) : Except String SubmissionResult × StoreState :=
  tryCatch (submitTryBlock fr, store)
    (fun _ st => fallbackToLocalStorage env data st)

/-- Observable outcome of one `handleSubmit` run.  `banner` is the
`showFormError` call (message and auto-dismiss delay in milliseconds),
`fieldErrors` the inline errors shown by `validateField`,
`pipelineInvoked` whether `submitToWaitlist` was called, and `store` the
local store after the run. -/
structure HandleResult where
  banner : Option (String × Nat) := none
  fieldErrors : List (String × String) := []
  pipelineInvoked : Bool := false
  successShown : Bool := false
  formReset : Bool := false
  store : StoreState
deriving DecidableEq, Repr

/-- `handleSubmit` (`script.js` line 93): validate every required field
(collecting inline errors); on any failure show the banner and stop before
the pipeline; otherwise collect the form data, run `submitToWaitlist`, and
either show the success state or catch the thrown
`Error(result.message || 'Failed to join waitlist')` and show the generic
banner.  `required` is the list of `(name, value)` pairs of the form's
`[required]` controls.  `Except.error` would be a fault escaping the
handler boundary. -/
def handleSubmit (fr : FetchResult) (env : FallbackEnv) (cenv : ClientEnv)
    (required : List (String × String)) (raw : RawForm) (store : StoreState) :
    Except String HandleResult :=
  let errs := required.filterMap (fun f => (validateField f.1 f.2).map (fun m => (f.1, m)))
  if errs.isEmpty = false then
    .ok { banner := some ("Please fill in all required fields correctly.", 5000),
          fieldErrors := errs, store := store }
  else
    let data := collectFormData cenv raw
    let body : Except String HandleResult × StoreState :=
      match submitToWaitlist fr env data store with
      | (.ok result, store') =>
          if result.success then
            (.ok { pipelineInvoked := true, successShown := true, formReset := true,
                   store := store' }, store')
          else
            (.error (jsOrElse result.message "Failed to join waitlist"), store')
      | (.error m, store') => (.error m, store')
    (tryCatch body (fun _ st =>
      (.ok { banner := some ("Sorry, there was an error joining the waitlist. Please try again.",
                             5000),
             pipelineInvoked := true, store := st }, st))).1

/-- The store state after a sequence of fallback submissions. -/
def runFallbacks (subs : List (FallbackEnv × FormSnapshot)) (store : StoreState) : StoreState :=
  subs.foldl (fun st p => (fallbackToLocalStorage p.1 p.2 st).2) store

/-- A string fixed by email normalization (trim then lower-case), as every
email produced by `collectFormData` is. -/
def emailNormalized (s : String) : Prop := jsToLower (jsTrim s) = s

instance (s : String) : Decidable (emailNormalized s) :=
  inferInstanceAs (Decidable (jsToLower (jsTrim s) = s))

/-- Store invariant: every stored email is normalized, and no two entries
share the same normalized email. -/
def storeInv (st : StoreState) : Prop :=
  (∀ e ∈ storeEntries st, emailNormalized e.data.email) ∧
  (storeEntries st).Pairwise
    (fun e₁ e₂ => jsToLower (jsTrim e₁.data.email) ≠ jsToLower (jsTrim e₂.data.email))

instance (st : StoreState) : Decidable (storeInv st) :=
  inferInstanceAs (Decidable (_ ∧ _))

instance {ε α : Type} [DecidableEq ε] [DecidableEq α] : DecidableEq (Except ε α) := fun x y =>
  match x, y with
  | .ok a, .ok b =>
      if h : a = b then isTrue (congrArg Except.ok h)
      else isFalse (fun hc => h (by injection hc))
  | .error a, .error b =>
      if h : a = b then isTrue (congrArg Except.error h)
      else isFalse (fun hc => h (by injection hc))
  | .ok _, .error _ => isFalse (fun hc => by injection hc)
  | .error _, .ok _ => isFalse (fun hc => by injection hc)

/-- A store on which the read-parse sequence succeeds. -/
def StoreState.readable : StoreState → Prop
  | .corrupt _ _ => False
  | _ => True

instance : DecidablePred StoreState.readable := by
  intro st
  cases st <;> simp [StoreState.readable] <;> infer_instance

/-! ### Sample concrete inputs (used by the witnesses)

These realize the spec scenario `{firstName:"Ann", lastName:"Lee",
email:"ANN@Example.com", company:"Acme", interest:"demo",
newsletter:true}`. -/

def sampleRaw : RawForm :=
  { firstName := "Ann"
    lastName := "Lee"
    email := "ANN@Example.com"
    company := "Acme"
    interest := "demo"
    newsletter := some "on" }

def sampleClientEnv : ClientEnv :=
  { nowIso := "2026-01-01T00:00:00.000Z", userAgent := "UA", referrer := "" }

def sampleFallbackEnv : FallbackEnv :=
  { idNow := "1767225600000", nowIso := "2026-01-01T00:00:01.000Z", setFail := none }

def sampleSnapshot : FormSnapshot := collectFormData sampleClientEnv sampleRaw

def sampleEntry : WaitlistEntry :=
  { data := sampleSnapshot, id := "1767225500000", submittedAt := "2026-01-01T00:00:00.500Z" }

/-- A store already holding an entry with the normalized email
`"ann@example.com"`. -/
def sampleDupStore : StoreState := .entries [sampleEntry]

/-- The required fields of the form with the sample raw values. -/
def sampleRequired : List (String × String) :=
  [("firstName", "Ann"), ("lastName", "Lee"), ("email", "ANN@Example.com"),
   ("company", "Acme"), ("interest", "demo")]

/-! ## Theorems -/

theorem not_rmatches_fail {s : List Char} : ¬ RMatches Regex.fail s := by
  intro h
  cases h with
  | cls hp => simp at hp

theorem rmatches_eps_iff {s : List Char} : RMatches .eps s ↔ s = [] := by
  constructor
  · intro h; cases h; rfl
  · rintro rfl; exact .eps

theorem rmatches_cls_iff {p : Char → Bool} {s : List Char} :
    RMatches (.cls p) s ↔ ∃ c, s = [c] ∧ p c = true := by
  constructor
  · intro h; cases h with
    | cls hp => exact ⟨_, rfl, hp⟩
  · rintro ⟨c, rfl, hp⟩; exact .cls hp

theorem rmatches_alt_iff {r₁ r₂ : Regex} {s : List Char} :
    RMatches (.alt r₁ r₂) s ↔ RMatches r₁ s ∨ RMatches r₂ s := by
  constructor
  · intro h; cases h with
    | altL h => exact Or.inl h
    | altR h => exact Or.inr h
  · rintro (h | h)
    · exact .altL h
    · exact .altR h

theorem rmatches_cat_iff {r₁ r₂ : Regex} {s : List Char} :
    RMatches (.cat r₁ r₂) s ↔
      ∃ s₁ s₂, s = s₁ ++ s₂ ∧ RMatches r₁ s₁ ∧ RMatches r₂ s₂ := by
  constructor
  · intro h; cases h with
    | cat h₁ h₂ => exact ⟨_, _, rfl, h₁, h₂⟩
  · rintro ⟨s₁, s₂, rfl, h₁, h₂⟩; exact .cat h₁ h₂

/-- `nullable` is correct for the declarative semantics. -/
theorem nullable_iff (r : Regex) : r.nullable = true ↔ RMatches r [] := by
  induction r with
  | eps => simp [Regex.nullable, rmatches_eps_iff]
  | cls p =>
      simp only [Regex.nullable, rmatches_cls_iff]
      constructor
      · intro h; cases h
      · rintro ⟨c, h, -⟩; cases h
  | alt r₁ r₂ ih₁ ih₂ =>
      simp [Regex.nullable, rmatches_alt_iff, ih₁, ih₂]
  | cat r₁ r₂ ih₁ ih₂ =>
      simp only [Regex.nullable, Bool.and_eq_true, rmatches_cat_iff]
      constructor
      · rintro ⟨h₁, h₂⟩
        exact ⟨[], [], rfl, ih₁.mp h₁, ih₂.mp h₂⟩
      · rintro ⟨s₁, s₂, hs, h₁, h₂⟩
        rcases List.append_eq_nil.mp hs.symm with ⟨rfl, rfl⟩
        exact ⟨ih₁.mpr h₁, ih₂.mpr h₂⟩
  | star r _ =>
      simp only [Regex.nullable, true_iff]
      exact .starNil

/-- Auxiliary induction for inverting a `star` match at a cons cell. -/
theorem star_split_aux {rs : Regex} {t : List Char} (h : RMatches rs t) :
    ∀ r c s, rs = Regex.star r → t = c :: s →
      ∃ s₁ s₂, s = s₁ ++ s₂ ∧ RMatches r (c :: s₁) ∧ RMatches (.star r) s₂ := by
  induction h with
  | eps => intro r c s hr ht; exact Regex.noConfusion hr
  | cls _ => intro r c s hr ht; exact Regex.noConfusion hr
  | altL _ _ => intro r c s hr ht; exact Regex.noConfusion hr
  | altR _ _ => intro r c s hr ht; exact Regex.noConfusion hr
  | cat _ _ _ _ => intro r c s hr ht; exact Regex.noConfusion hr
  | starNil => intro r c s hr ht; cases ht
  | @starCat r' s₁ s₂ h₁ h₂ ih₁ ih₂ =>
      intro r c s hr ht
      injection hr with hrr
      subst hrr
      cases s₁ with
      | nil => exact ih₂ r' c s rfl ht
      | cons d s₁' =>
          rw [List.cons_append] at ht
          injection ht with hd hts
          subst hd
          subst hts
          exact ⟨s₁', s₂, rfl, h₁, h₂⟩

/-- Inversion for `star` at a cons cell: the first iteration consumes at
least the head character. -/
theorem star_cons_split {r : Regex} {c : Char} {s : List Char}
    (h : RMatches (.star r) (c :: s)) :
    ∃ s₁ s₂, s = s₁ ++ s₂ ∧ RMatches r (c :: s₁) ∧ RMatches (.star r) s₂ :=
  star_split_aux h r c s rfl rfl

/-- The derivative is correct for the declarative semantics. -/
theorem deriv_iff (r : Regex) (c : Char) (s : List Char) :
    RMatches (r.deriv c) s ↔ RMatches r (c :: s) := by
  induction r generalizing s with
  | eps =>
      simp only [Regex.deriv]
      constructor
      · intro h; exact absurd h not_rmatches_fail
      · intro h; cases h
  | cls p =>
      simp only [Regex.deriv]
      by_cases hp : p c = true
      · rw [if_pos hp]
        rw [rmatches_eps_iff]
        constructor
        · rintro rfl; exact .cls hp
        · intro h; cases h; rfl
      · rw [if_neg hp]
        constructor
        · intro h; exact absurd h not_rmatches_fail
        · intro h; cases h with
          | cls hp' => exact absurd hp' hp
  | alt r₁ r₂ ih₁ ih₂ =>
      simp [Regex.deriv, rmatches_alt_iff, ih₁, ih₂]
  | cat r₁ r₂ ih₁ ih₂ =>
      simp only [Regex.deriv]
      by_cases hn : r₁.nullable = true
      · rw [if_pos hn]
        simp only [rmatches_alt_iff, rmatches_cat_iff]
        constructor
        · rintro (⟨s₁, s₂, rfl, h₁, h₂⟩ | h)
          · exact ⟨c :: s₁, s₂, rfl, (ih₁ s₁).mp h₁, h₂⟩
          · exact ⟨[], c :: s, rfl, (nullable_iff r₁).mp hn, (ih₂ s).mp h⟩
        · rintro ⟨s₁, s₂, hs, h₁, h₂⟩
          cases s₁ with
          | nil =>
              cases hs
              exact Or.inr ((ih₂ s).mpr h₂)
          | cons d s₁' =>
              rw [List.cons_append] at hs
              injection hs with hd ht
              subst hd; subst ht
              exact Or.inl ⟨s₁', s₂, rfl, (ih₁ s₁').mpr h₁, h₂⟩
      · rw [if_neg hn]
        simp only [rmatches_cat_iff]
        constructor
        · rintro ⟨s₁, s₂, rfl, h₁, h₂⟩
          exact ⟨c :: s₁, s₂, rfl, (ih₁ s₁).mp h₁, h₂⟩
        · rintro ⟨s₁, s₂, hs, h₁, h₂⟩
          cases s₁ with
          | nil =>
              cases hs
              exact absurd ((nullable_iff r₁).mpr h₁) hn
          | cons d s₁' =>
              rw [List.cons_append] at hs
              injection hs with hd ht
              subst hd; subst ht
              exact ⟨s₁', s₂, rfl, (ih₁ s₁').mpr h₁, h₂⟩
  | star r ih =>
      simp only [Regex.deriv, rmatches_cat_iff]
      constructor
      · rintro ⟨s₁, s₂, rfl, h₁, h₂⟩
        have hcat := RMatches.starCat ((ih s₁).mp h₁) h₂
        simpa using hcat
      · intro h
        obtain ⟨s₁, s₂, rfl, h₁, h₂⟩ := star_cons_split h
        exact ⟨s₁, s₂, rfl, (ih s₁).mpr h₁, h₂⟩

/-- Correctness of the executable matcher. -/
theorem rmatch_iff (r : Regex) (s : List Char) :
    r.rmatch s = true ↔ RMatches r s := by
  induction s generalizing r with
  | nil => exact nullable_iff r
  | cons c s ih =>
      simp only [Regex.rmatch, List.foldl_cons] at *
      exact (ih (r.deriv c)).trans (deriv_iff r c s)

/-- `star` of a character class matches exactly the strings all of whose
characters satisfy the class. -/
theorem rmatches_star_cls_iff {p : Char → Bool} {s : List Char} :
    RMatches (.star (.cls p)) s ↔ ∀ c ∈ s, p c = true := by
  constructor
  · intro h
    induction s with
    | nil => intro c hc; cases hc
    | cons d t ih =>
        obtain ⟨s₁, s₂, hs, h₁, h₂⟩ := star_cons_split h
        obtain ⟨c, hc, hp⟩ := rmatches_cls_iff.mp h₁
        injection hc with hd ht
        subst hd
        subst ht
        simp only [List.nil_append] at hs
        subst hs
        intro e he
        rcases List.mem_cons.mp he with rfl | he
        · exact hp
        · exact ih h₂ e he
  · intro h
    induction s with
    | nil => exact .starNil
    | cons d t ih =>
        have : RMatches (.star (.cls p)) ([d] ++ t) :=
          .starCat (.cls (h d (List.mem_cons_self d t)))
            (ih (fun c hc => h c (List.mem_cons_of_mem d hc)))
        simpa using this

/-- `plus` of a character class matches exactly the nonempty strings all of
whose characters satisfy the class. -/
theorem rmatches_plus_cls_iff {p : Char → Bool} {s : List Char} :
    RMatches (Regex.plus (.cls p)) s ↔ s ≠ [] ∧ ∀ c ∈ s, p c = true := by
  simp only [Regex.plus, rmatches_cat_iff]
  constructor
  · rintro ⟨s₁, s₂, rfl, h₁, h₂⟩
    obtain ⟨c, rfl, hp⟩ := rmatches_cls_iff.mp h₁
    refine ⟨by simp, ?_⟩
    intro e he
    rcases List.mem_append.mp he with he | he
    · rcases List.mem_singleton.mp he with rfl; exact hp
    · exact rmatches_star_cls_iff.mp h₂ e he
  · rintro ⟨hne, h⟩
    cases s with
    | nil => exact absurd rfl hne
    | cons c t =>
        refine ⟨[c], t, rfl, .cls (h c (List.mem_cons_self c t)), ?_⟩
        exact rmatches_star_cls_iff.mpr (fun e he => h e (List.mem_cons_of_mem c he))

theorem isValidEmail_iff (s : String) : isValidEmail s = true ↔ EmailShape s := by
  rw [isValidEmail, rmatch_iff]
  show RMatches emailRegex s.data ↔ EmailShape s
  unfold emailRegex
  constructor
  · intro h
    rw [rmatches_cat_iff] at h
    obtain ⟨a, r₁, hs, ha, h⟩ := h
    rw [rmatches_cat_iff] at h
    obtain ⟨t₁, r₂, hr₁, ht₁, h⟩ := h
    rw [rmatches_cat_iff] at h
    obtain ⟨b, r₃, hr₂, hb, h⟩ := h
    rw [rmatches_cat_iff] at h
    obtain ⟨t₂, c, hr₃, ht₂, hc⟩ := h
    obtain ⟨ca, hca, hcaeq⟩ := rmatches_cls_iff.mp ht₁
    obtain ⟨cb, hcb, hcbeq⟩ := rmatches_cls_iff.mp ht₂
    obtain ⟨hane, haall⟩ := rmatches_plus_cls_iff.mp ha
    obtain ⟨hbne, hball⟩ := rmatches_plus_cls_iff.mp hb
    obtain ⟨hcne, hcall⟩ := rmatches_plus_cls_iff.mp hc
    subst hca
    subst hcb
    have hcaeq' : ca = '@' := by simpa using hcaeq
    have hcbeq' : cb = '.' := by simpa using hcbeq
    subst hcaeq'
    subst hcbeq'
    refine ⟨a, b, c, ?_, hane, hbne, hcne, haall, hball, hcall⟩
    rw [hs, hr₁, hr₂, hr₃]
    simp
  · rintro ⟨a, b, c, hs, hane, hbne, hcne, haall, hball, hcall⟩
    rw [rmatches_cat_iff]
    refine ⟨a, '@' :: (b ++ '.' :: c), by simpa using hs,
      rmatches_plus_cls_iff.mpr ⟨hane, haall⟩, ?_⟩
    rw [rmatches_cat_iff]
    refine ⟨['@'], b ++ '.' :: c, rfl, rmatches_cls_iff.mpr ⟨'@', rfl, by simp⟩, ?_⟩
    rw [rmatches_cat_iff]
    refine ⟨b, '.' :: c, rfl, rmatches_plus_cls_iff.mpr ⟨hbne, hball⟩, ?_⟩
    rw [rmatches_cat_iff]
    exact ⟨['.'], c, rfl, rmatches_cls_iff.mpr ⟨'.', rfl, by simp⟩,
      rmatches_plus_cls_iff.mpr ⟨hcne, hcall⟩⟩

theorem isValidName_iff (s : String) :
    isValidName s = true ↔ s.data ≠ [] ∧ ∀ c ∈ s.data, nameChar c = true := by
  rw [isValidName, rmatch_iff]
  exact rmatches_plus_cls_iff

/-! ## Helper lemmas about the pipeline -/

theorem string_ne_empty_iff (s : String) : s ≠ "" ↔ s.data ≠ [] := by
  constructor
  · intro h hdata
    exact h (by cases s with | mk l => cases hdata; rfl)
  · intro h hs
    subst hs
    exact h rfl

/-- The fallback on a fresh (non-duplicate) email with a working store:
append the new entry, persist, report offline success. -/
theorem fallback_fresh (env : FallbackEnv) (data : FormSnapshot) (store : StoreState)
    (hread : store.readable)
    (hnew : ∀ e ∈ storeEntries store, e.data.email ≠ data.email)
    (hset : env.setFail = none) :
    fallbackToLocalStorage env data store =
      (.ok { success := true, message := some "Successfully added to waitlist (offline mode)" },
       .entries (storeEntries store ++
         [{ data := data, id := env.idNow, submittedAt := env.nowIso }])) := by
  have hany : (storeEntries store).any (fun entry => entry.data.email == data.email) = false := by
    rw [List.any_eq_false]
    intro e he
    simpa using hnew e he
  cases store with
  | corrupt raw m => exact absurd hread (by simp [StoreState.readable])
  | absent =>
      simp only [fallbackToLocalStorage, fallbackTryBlock, storeEntries] at *
      rw [hany, hset]
      rfl
  | entries l =>
      simp only [fallbackToLocalStorage, fallbackTryBlock, storeEntries] at *
      rw [hany, hset]
      rfl

/-- The fallback on a duplicate email: reject, leave the store alone. -/
theorem fallback_dup (env : FallbackEnv) (data : FormSnapshot) (store : StoreState)
    (hdup : ∃ e ∈ storeEntries store, e.data.email = data.email) :
    fallbackToLocalStorage env data store =
      (.ok { success := false, message := some "This email is already on our waitlist." },
       store) := by
  have hany : (storeEntries store).any (fun entry => entry.data.email == data.email) = true := by
    rw [List.any_eq_true]
    obtain ⟨e, he, hee⟩ := hdup
    exact ⟨e, he, by simpa using hee⟩
  cases store with
  | corrupt raw m => simp [storeEntries] at hany
  | absent =>
      simp only [fallbackToLocalStorage, fallbackTryBlock, storeEntries] at *
      rw [hany]
      rfl
  | entries l =>
      simp only [fallbackToLocalStorage, fallbackTryBlock, storeEntries] at *
      rw [hany]
      rfl

/-- The fallback on a corrupted store: caught parse error, store untouched. -/
theorem fallback_corrupt (env : FallbackEnv) (data : FormSnapshot) (raw m : String) :
    fallbackToLocalStorage env data (.corrupt raw m) =
      (.ok { success := false, message := some ("Failed to save waitlist entry: " ++ m) },
       .corrupt raw m) := rfl

/-- The fallback when `setItem` throws: caught, store untouched. -/
theorem fallback_setfail (env : FallbackEnv) (data : FormSnapshot) (store : StoreState)
    (hread : store.readable)
    (hnew : ∀ e ∈ storeEntries store, e.data.email ≠ data.email)
    (m : String) (hset : env.setFail = some m) :
    fallbackToLocalStorage env data store =
      (.ok { success := false, message := some ("Failed to save waitlist entry: " ++ m) },
       store) := by
  have hany : (storeEntries store).any (fun entry => entry.data.email == data.email) = false := by
    rw [List.any_eq_false]
    intro e he
    simpa using hnew e he
  cases store with
  | corrupt raw m => exact absurd hread (by simp [StoreState.readable])
  | absent =>
      simp only [fallbackToLocalStorage, fallbackTryBlock, storeEntries] at *
      rw [hany, hset]
      rfl
  | entries l =>
      simp only [fallbackToLocalStorage, fallbackTryBlock, storeEntries] at *
      rw [hany, hset]
      rfl

/-- The fallback never lets an exception escape. -/
theorem fallback_resolves (env : FallbackEnv) (data : FormSnapshot) (store : StoreState) :
    ∃ r st, fallbackToLocalStorage env data store = (.ok r, st) := by
  cases store with
  | corrupt raw m => exact ⟨_, _, fallback_corrupt env data raw m⟩
  | absent =>
      simp only [fallbackToLocalStorage, fallbackTryBlock, storeEntries]
      cases h : ([] : List WaitlistEntry).any (fun entry => entry.data.email == data.email) with
      | true => exact ⟨_, _, rfl⟩
      | false =>
          cases hs : env.setFail with
          | none => exact ⟨_, _, rfl⟩
          | some m => exact ⟨_, _, rfl⟩
  | entries l =>
      simp only [fallbackToLocalStorage, fallbackTryBlock, storeEntries]
      cases h : l.any (fun entry => entry.data.email == data.email) with
      | true => exact ⟨_, _, rfl⟩
      | false =>
          cases hs : env.setFail with
          | none => exact ⟨_, _, rfl⟩
          | some m => exact ⟨_, _, rfl⟩

/-- The pipeline never lets an exception escape. -/
theorem submit_resolves (fr : FetchResult) (env : FallbackEnv) (data : FormSnapshot)
    (store : StoreState) :
    ∃ r st, submitToWaitlist fr env data store = (.ok r, st) := by
  unfold submitToWaitlist
  cases h : submitTryBlock fr with
  | ok r => exact ⟨r, store, rfl⟩
  | error m =>
      obtain ⟨r, st, hf⟩ := fallback_resolves env data store
      exact ⟨r, st, hf⟩

/-- Appending an entry with a fresh normalized email preserves the store
invariant. -/
theorem inv_append (l : List WaitlistEntry) (x : WaitlistEntry)
    (hl : ∀ e ∈ l, emailNormalized e.data.email)
    (hp : l.Pairwise
      (fun e₁ e₂ => jsToLower (jsTrim e₁.data.email) ≠ jsToLower (jsTrim e₂.data.email)))
    (hx : emailNormalized x.data.email)
    (hnew : ∀ e ∈ l, e.data.email ≠ x.data.email) :
    storeInv (.entries (l ++ [x])) := by
  constructor
  · intro e he
    rcases List.mem_append.mp he with he | he
    · exact hl e he
    · rcases List.mem_singleton.mp he with rfl
      exact hx
  · refine List.pairwise_append.mpr ⟨hp, List.pairwise_singleton _ _, ?_⟩
    intro a ha b hb
    have hbx : b = x := List.mem_singleton.mp hb
    intro hcontra
    rw [hbx] at hcontra
    exact hnew a ha (((hl a ha).symm.trans hcontra).trans hx)

/-- One fallback submission of a normalized snapshot preserves the store
invariant. -/
theorem fallback_preserves_inv (env : FallbackEnv) (data : FormSnapshot) (store : StoreState)
    (hinv : storeInv store) (hnorm : emailNormalized data.email) :
    storeInv (fallbackToLocalStorage env data store).2 := by
  by_cases hdup : ∃ e ∈ storeEntries store, e.data.email = data.email
  · rw [fallback_dup env data store hdup]
    exact hinv
  · push_neg at hdup
    cases store with
    | corrupt raw m => rw [fallback_corrupt]; exact hinv
    | absent =>
        cases hs : env.setFail with
        | some m =>
            rw [fallback_setfail env data .absent trivial hdup m hs]
            exact hinv
        | none =>
            rw [fallback_fresh env data .absent trivial hdup hs]
            exact inv_append [] _ (fun e he => absurd he (List.not_mem_nil e))
              List.Pairwise.nil hnorm (fun e he => absurd he (List.not_mem_nil e))
    | entries l =>
        cases hs : env.setFail with
        | some m =>
            rw [fallback_setfail env data (.entries l) trivial hdup m hs]
            exact hinv
        | none =>
            rw [fallback_fresh env data (.entries l) trivial hdup hs]
            exact inv_append l _ hinv.1 hinv.2 hnorm hdup

/-- A sequence of fallback submissions of normalized snapshots preserves
the store invariant. -/
theorem runFallbacks_preserves_inv (subs : List (FallbackEnv × FormSnapshot))
    (store : StoreState) (hinv : storeInv store)
    (hsubs : ∀ p ∈ subs, emailNormalized p.2.email) :
    storeInv (runFallbacks subs store) := by
  induction subs generalizing store with
  | nil => exact hinv
  | cons p t ih =>
      exact ih _
        (fallback_preserves_inv p.1 p.2 store hinv (hsubs p (List.mem_cons_self p t)))
        (fun q hq => hsubs q (List.mem_cons_of_mem p hq))

/-- A corrupted store is never repaired by fallback submissions. -/
theorem runFallbacks_corrupt (subs : List (FallbackEnv × FormSnapshot)) (raw m : String) :
    runFallbacks subs (.corrupt raw m) = .corrupt raw m := by
  induction subs with
  | nil => rfl
  | cons p t ih =>
      show runFallbacks t (fallbackToLocalStorage p.1 p.2 (.corrupt raw m)).2 = _
      rw [fallback_corrupt]
      exact ih

/-- `handleSubmit` never lets an exception escape the handler boundary. -/
theorem handleSubmit_resolves (fr : FetchResult) (env : FallbackEnv) (cenv : ClientEnv)
    (required : List (String × String)) (raw : RawForm) (store : StoreState) :
    ∃ out, handleSubmit fr env cenv required raw store = .ok out := by
  obtain ⟨r, st, hs⟩ := submit_resolves fr env (collectFormData cenv raw) store
  simp only [handleSubmit]
  by_cases he :
      (required.filterMap (fun f => (validateField f.1 f.2).map (fun m => (f.1, m)))).isEmpty
        = false
  · rw [if_pos he]
    exact ⟨_, rfl⟩
  · rw [if_neg he, hs]
    obtain ⟨rs, rm, rd⟩ := r
    cases rs with
    | true => exact ⟨_, rfl⟩
    | false => exact ⟨_, rfl⟩

/-! ## Claim theorems -/

/-- C1: for every snapshot whose remote submission fails (the try block of
`submitToWaitlist` throws) and whose normalized email is not already in a
readable local store, with a working `setItem`, the fallback appends
exactly one new `WaitlistEntry` — the snapshot (email trimmed and
lower-cased by `collectFormData`) plus the generated id and `submittedAt`
timestamp — persists the updated store, and returns Success with the
message "Successfully added to waitlist (offline mode)". -/
theorem fallback_appends_entry_on_remote_failure
    (fr : FetchResult) (env : FallbackEnv) (cenv : ClientEnv) (raw : RawForm)
    (store : StoreState) (em : String)
    (hremote : submitTryBlock fr = .error em)
    (hread : store.readable)
    (hnew : ∀ e ∈ storeEntries store, e.data.email ≠ (collectFormData cenv raw).email)
    (hset : env.setFail = none) :
    submitToWaitlist fr env (collectFormData cenv raw) store =
      (.ok { success := true, message := some "Successfully added to waitlist (offline mode)" },
       .entries (storeEntries store ++
         [{ data := collectFormData cenv raw, id := env.idNow, submittedAt := env.nowIso }])) ∧
    (collectFormData cenv raw).email = jsToLower (jsTrim raw.email) := by
  constructor
  · unfold submitToWaitlist
    rw [hremote]
    exact fallback_fresh env _ store hread hnew hset
  · rfl

/-- C1 witness: the spec scenario — Ann's snapshot with remote down and an
empty store; the stored email is `"ann@example.com"`. -/
theorem fallback_appends_entry_witness :
    submitTryBlock (.reject "Failed to fetch") = .error "Failed to fetch" ∧
    sampleFallbackEnv.setFail = none ∧
    (submitToWaitlist (.reject "Failed to fetch") sampleFallbackEnv sampleSnapshot .absent =
      (.ok { success := true, message := some "Successfully added to waitlist (offline mode)" },
       .entries [{ data := sampleSnapshot, id := "1767225600000",
                   submittedAt := "2026-01-01T00:00:01.000Z" }]) ∧
     sampleSnapshot.email = jsToLower (jsTrim sampleRaw.email)) ∧
    sampleSnapshot.email = "ann@example.com" :=
  ⟨rfl, rfl,
   fallback_appends_entry_on_remote_failure (.reject "Failed to fetch") sampleFallbackEnv
     sampleClientEnv sampleRaw .absent "Failed to fetch" rfl trivial (by decide) rfl,
   by decide⟩

/-- C2: if the submitted snapshot's email is normalized (as
`collectFormData` produces it), the stored entries have normalized emails,
and one of them has the same normalized email, the fallback returns
Failure "This email is already on our waitlist." and leaves the store
unchanged; and any sequence of fallback submissions of normalized
snapshots preserves the invariant that the store holds at most one entry
per normalized email. -/
theorem fallback_rejects_duplicate_and_keeps_unique :
    (∀ (env : FallbackEnv) (data : FormSnapshot) (store : StoreState),
      emailNormalized data.email →
      (∀ e ∈ storeEntries store, emailNormalized e.data.email) →
      (∃ e ∈ storeEntries store,
        jsToLower (jsTrim e.data.email) = jsToLower (jsTrim data.email)) →
      fallbackToLocalStorage env data store =
        (.ok { success := false, message := some "This email is already on our waitlist." },
         store)) ∧
    (∀ (subs : List (FallbackEnv × FormSnapshot)) (store : StoreState),
      storeInv store → (∀ p ∈ subs, emailNormalized p.2.email) →
      storeInv (runFallbacks subs store)) := by
  constructor
  · intro env data store hnorm hstore hdup
    apply fallback_dup
    obtain ⟨e, he, hee⟩ := hdup
    exact ⟨e, he, ((hstore e he).symm.trans hee).trans hnorm⟩
  · exact runFallbacks_preserves_inv

/-- C2 witness: resubmitting Ann's snapshot against a store already
holding it is rejected and the store keeps its single entry. -/
theorem fallback_rejects_duplicate_witness :
    emailNormalized sampleSnapshot.email ∧
    (fallbackToLocalStorage sampleFallbackEnv sampleSnapshot sampleDupStore =
      (.ok { success := false, message := some "This email is already on our waitlist." },
       sampleDupStore)) ∧
    storeInv (runFallbacks [(sampleFallbackEnv, sampleSnapshot)] sampleDupStore) :=
  ⟨by decide,
   fallback_rejects_duplicate_and_keeps_unique.1 sampleFallbackEnv sampleSnapshot sampleDupStore
     (by decide) (by decide) (by decide),
   fallback_rejects_duplicate_and_keeps_unique.2 [(sampleFallbackEnv, sampleSnapshot)]
     sampleDupStore (by constructor <;> decide) (by decide)⟩

/-- C3: for every input snapshot and every behaviour of the remote
endpoint and of the local store, the submission pipeline resolves to
exactly one `SubmissionResult` value (`Except.ok`, never an escaping
`Except.error`), and so does the submit handler. -/
theorem pipeline_always_resolves (fr : FetchResult) (env : FallbackEnv) (cenv : ClientEnv)
    (required : List (String × String)) (raw : RawForm) (store : StoreState) :
    (∃ r st, submitToWaitlist fr env (collectFormData cenv raw) store = (.ok r, st)) ∧
    (∃ out, handleSubmit fr env cenv required raw store = .ok out) :=
  ⟨submit_resolves fr env (collectFormData cenv raw) store,
   handleSubmit_resolves fr env cenv required raw store⟩

/-- C4 counterexample: a remote call that returns a success HTTP status
with a body `response.json()` cannot parse makes the pipeline fall back to
local storage — it writes the store and returns the offline-mode Success
instead of the server's response payload. -/
theorem remote_success_with_unparseable_body_writes_store :
    (submitToWaitlist (.resp true 200 (.error "Unexpected end of JSON input"))
        sampleFallbackEnv sampleSnapshot .absent).2 ≠ .absent ∧
    (submitToWaitlist (.resp true 200 (.error "Unexpected end of JSON input"))
        sampleFallbackEnv sampleSnapshot .absent).1 =
      .ok { success := true, message := some "Successfully added to waitlist (offline mode)" } :=
  ⟨by decide, by decide⟩

/-- C4 (amended): for every submission in which the remote call returns a
success HTTP status AND a JSON-parseable body, the pipeline returns
Success carrying the server's response payload and performs no write to
the local store (the store is returned unchanged). -/
theorem remote_success_returns_payload (status : Nat) (j : JsonBody) (env : FallbackEnv)
    (data : FormSnapshot) (store : StoreState) :
    submitToWaitlist (.resp true status (.ok j)) env data store =
      (.ok { success := true, message := none, data := some j.payload }, store) := rfl

/-- C5: for every field, validating a raw value that trims to the empty
string yields the error "This field is required", regardless of the
field's kind (the kind-specific checks are skipped). -/
theorem empty_required_field_error (fieldName rawValue : String)
    (h : jsTrim rawValue = "") :
    validateField fieldName rawValue = some "This field is required" := by
  simp [validateField, h]

/-- C5 witness: a whitespace-only email field value. -/
theorem empty_required_field_error_witness :
    jsTrim "   " = "" ∧
    validateField "email" "   " = some "This field is required" :=
  ⟨by decide, empty_required_field_error "email" "   " (by decide)⟩

/-- C6: for every non-empty trimmed email value, validation succeeds iff
the value is one-or-more non-space-non-`@` characters, `@`, one-or-more
non-space-non-`@` characters, a literal `.`, and one-or-more
non-space-non-`@` characters; otherwise the error is "Please enter a
valid email address" — in particular values with no `@`, or no `.` at
all, fail. -/
theorem email_validation_shape (v : String) (hne : v ≠ "") (ht : jsTrim v = v) :
    (validateField "email" v = none ↔ EmailShape v) ∧
    (¬ EmailShape v → validateField "email" v = some "Please enter a valid email address") ∧
    ((∀ c ∈ v.data, c ≠ '@') →
      validateField "email" v = some "Please enter a valid email address") ∧
    ((∀ c ∈ v.data, c ≠ '.') →
      validateField "email" v = some "Please enter a valid email address") := by
  have hvf : validateField "email" v =
      if isValidEmail v = true then none else some "Please enter a valid email address" := by
    cases hE : isValidEmail v with
    | true => simp [validateField, ht, hne, hE]
    | false => simp [validateField, ht, hne, hE]
  have h2 : ¬ EmailShape v →
      validateField "email" v = some "Please enter a valid email address" := by
    intro hns
    rw [hvf, if_neg (fun hE => hns ((isValidEmail_iff v).mp hE))]
  refine ⟨?_, h2, ?_, ?_⟩
  · by_cases hE : isValidEmail v = true
    · rw [hvf, if_pos hE]
      exact iff_of_true rfl ((isValidEmail_iff v).mp hE)
    · rw [hvf, if_neg hE]
      exact iff_of_false (by simp) (fun hs => hE ((isValidEmail_iff v).mpr hs))
  · intro hno
    refine h2 ?_
    rintro ⟨a, b, c, hs, -, -, -, -, -, -⟩
    exact hno '@' (by rw [hs]; simp) rfl
  · intro hno
    refine h2 ?_
    rintro ⟨a, b, c, hs, -, -, -, -, -, -⟩
    exact hno '.' (by rw [hs]; simp) rfl

/-- C6 witness: `"a@b.c"` passes and `"not-an-email"` (no `@`) is
rejected with the email error. -/
theorem email_validation_shape_witness :
    validateField "email" "a@b.c" = none ∧
    validateField "email" "not-an-email" = some "Please enter a valid email address" :=
  ⟨((email_validation_shape "a@b.c" (by decide) (by decide)).1).mpr
     ⟨['a'], ['b'], ['c'], rfl, by decide, by decide, by decide, by decide, by decide, by decide⟩,
   (email_validation_shape "not-an-email" (by decide) (by decide)).2.2.1 (by decide)⟩

/-- C7: for every non-empty trimmed first/last-name value, validation
succeeds iff every character is an ASCII letter, whitespace, apostrophe
or hyphen; otherwise the error is "Please use letters only". -/
theorem name_validation_letters_only (fieldName v : String)
    (hf : fieldName = "firstName" ∨ fieldName = "lastName")
    (hne : v ≠ "") (ht : jsTrim v = v) :
    (validateField fieldName v = none ↔ ∀ c ∈ v.data, nameChar c = true) ∧
    (¬ (∀ c ∈ v.data, nameChar c = true) →
      validateField fieldName v = some "Please use letters only") := by
  have hvf : validateField fieldName v =
      if isValidName v = true then none else some "Please use letters only" := by
    rcases hf with rfl | rfl <;> cases hE : isValidName v <;> simp [validateField, ht, hne, hE]
  have hdata : v.data ≠ [] := (string_ne_empty_iff v).mp hne
  have hiff : isValidName v = true ↔ ∀ c ∈ v.data, nameChar c = true := by
    rw [isValidName_iff]
    exact and_iff_right hdata
  constructor
  · by_cases hN : isValidName v = true
    · rw [hvf, if_pos hN]
      exact iff_of_true rfl (hiff.mp hN)
    · rw [hvf, if_neg hN]
      exact iff_of_false (by simp) (fun hs => hN (hiff.mpr hs))
  · intro hns
    rw [hvf, if_neg (fun hN => hns (hiff.mp hN))]

/-- C7 witness: `"Mary-Jane O'Brien"` passes on `firstName`, and a value
with a digit is rejected with the letters-only error on `lastName`. -/
theorem name_validation_letters_only_witness :
    validateField "firstName" ("Mary-Jane O" ++ (Char.ofNat 39).toString ++ "Brien") = none ∧
    validateField "lastName" "R2D2" = some "Please use letters only" :=
  ⟨((name_validation_letters_only "firstName"
       ("Mary-Jane O" ++ (Char.ofNat 39).toString ++ "Brien")
       (Or.inl rfl) (by decide) (by decide)).1).mpr (by decide),
   (name_validation_letters_only "lastName" "R2D2" (Or.inr rfl) (by decide) (by decide)).2
     (by decide)⟩

/-- C8: if at least one required field fails validation, `handleSubmit`
shows the single banner error "Please fill in all required fields
correctly." (with the inline field errors) and never invokes the
submission pipeline: no remote call, no store access, store unchanged. -/
theorem invalid_field_blocks_pipeline (fr : FetchResult) (env : FallbackEnv) (cenv : ClientEnv)
    (required : List (String × String)) (raw : RawForm) (store : StoreState)
    (h : ∃ f ∈ required, validateField f.1 f.2 ≠ none) :
    handleSubmit fr env cenv required raw store =
      .ok { banner := some ("Please fill in all required fields correctly.", 5000),
            fieldErrors :=
              required.filterMap (fun f => (validateField f.1 f.2).map (fun m => (f.1, m))),
            pipelineInvoked := false, successShown := false, formReset := false,
            store := store } := by
  have hne :
      required.filterMap (fun f => (validateField f.1 f.2).map (fun m => (f.1, m))) ≠ [] := by
    obtain ⟨f, hf, hv⟩ := h
    obtain ⟨m, hm⟩ := Option.ne_none_iff_exists'.mp hv
    refine List.ne_nil_of_mem (a := (f.1, m)) (List.mem_filterMap.mpr ⟨f, hf, ?_⟩)
    rw [hm]
    rfl
  simp only [handleSubmit]
  rw [if_pos (by simpa using hne)]

/-- C8 witness: the invalid email `"not-an-email"` blocks the pipeline
(remote reachable or not) and leaves the store untouched. -/
theorem invalid_field_blocks_pipeline_witness :
    (∃ f ∈ [("email", "not-an-email")], validateField f.1 f.2 ≠ none) ∧
    handleSubmit (.reject "Failed to fetch") sampleFallbackEnv sampleClientEnv
        [("email", "not-an-email")] sampleRaw .absent =
      .ok { banner := some ("Please fill in all required fields correctly.", 5000),
            fieldErrors := [("email", "Please enter a valid email address")],
            pipelineInvoked := false, successShown := false, formReset := false,
            store := .absent } :=
  ⟨by decide,
   (invalid_field_blocks_pipeline (.reject "Failed to fetch") sampleFallbackEnv sampleClientEnv
      [("email", "not-an-email")] sampleRaw .absent (by decide)).trans (by decide)⟩

/-- C9 counterexample: on the duplicate-email Failure the handler's banner
shows the fixed generic message, not the failure's specific message "This
email is already on our waitlist." — the specific message is discarded by
the catch block. -/
theorem duplicate_failure_banner_is_generic :
    (submitToWaitlist (.reject "Failed to fetch") sampleFallbackEnv sampleSnapshot
        sampleDupStore).1 =
      .ok { success := false, message := some "This email is already on our waitlist." } ∧
    handleSubmit (.reject "Failed to fetch") sampleFallbackEnv sampleClientEnv sampleRequired
        sampleRaw sampleDupStore =
      .ok { banner := some ("Sorry, there was an error joining the waitlist. Please try again.",
                            5000),
            fieldErrors := [], pipelineInvoked := true, successShown := false, formReset := false,
            store := sampleDupStore } ∧
    ("Sorry, there was an error joining the waitlist. Please try again." : String) ≠
      "This email is already on our waitlist." :=
  ⟨by decide, by decide, by decide⟩

/-- C9 (amended): for every submission whose pipeline outcome is a Failure
— in particular the duplicate-email Failure — the handler shows the
generic banner error "Sorry, there was an error joining the waitlist.
Please try again." (not the failure's specific message), auto-dismissed
after 5000 ms. -/
theorem failure_outcome_shows_generic_banner (fr : FetchResult) (env : FallbackEnv)
    (cenv : ClientEnv) (required : List (String × String)) (raw : RawForm) (store : StoreState)
    (hvalid : ∀ f ∈ required, validateField f.1 f.2 = none)
    (r : SubmissionResult) (st' : StoreState)
    (hres : submitToWaitlist fr env (collectFormData cenv raw) store = (.ok r, st'))
    (hfail : r.success = false) :
    handleSubmit fr env cenv required raw store =
      .ok { banner := some ("Sorry, there was an error joining the waitlist. Please try again.",
                            5000),
            fieldErrors := [], pipelineInvoked := true, successShown := false, formReset := false,
            store := st' } := by
  have herrs :
      required.filterMap (fun f => (validateField f.1 f.2).map (fun m => (f.1, m))) = [] :=
    List.filterMap_eq_nil_iff.mpr (fun f hf => by rw [hvalid f hf]; rfl)
  simp only [handleSubmit, herrs]
  rw [if_neg (by simp), hres]
  obtain ⟨rs, rm, rd⟩ := r
  cases rs with
  | true => exact Bool.noConfusion hfail
  | false => rfl

/-- C9 amended-claim witness: the duplicate-email scenario shows the
generic banner with the 5000 ms auto-dismiss. -/
theorem failure_outcome_banner_witness :
    (∀ f ∈ sampleRequired, validateField f.1 f.2 = none) ∧
    handleSubmit (.reject "Failed to fetch") sampleFallbackEnv sampleClientEnv sampleRequired
        sampleRaw sampleDupStore =
      .ok { banner := some ("Sorry, there was an error joining the waitlist. Please try again.",
                            5000),
            fieldErrors := [], pipelineInvoked := true, successShown := false, formReset := false,
            store := sampleDupStore } :=
  ⟨by decide,
   failure_outcome_shows_generic_banner (.reject "Failed to fetch") sampleFallbackEnv
     sampleClientEnv sampleRequired sampleRaw sampleDupStore (by decide)
     { success := false, message := some "This email is already on our waitlist." }
     sampleDupStore rfl rfl⟩

/-- C10: a stored value on which the read-parse sequence throws makes the
fallback return Failure with a message beginning "Failed to save waitlist
entry: " followed by the error description, leaves the stored value
unchanged, and raises no uncaught exception; the corrupted store is never
repaired by subsequent fallback submissions, which therefore all fail;
and a throwing `setItem` likewise yields the prefixed Failure with the
store unchanged. -/
theorem corrupted_store_fallback_fails :
    (∀ (env : FallbackEnv) (data : FormSnapshot) (raw m : String),
      fallbackToLocalStorage env data (.corrupt raw m) =
        (.ok { success := false, message := some ("Failed to save waitlist entry: " ++ m) },
         .corrupt raw m)) ∧
    (∀ (subs : List (FallbackEnv × FormSnapshot)) (raw m : String),
      runFallbacks subs (.corrupt raw m) = .corrupt raw m) ∧
    (∀ (env : FallbackEnv) (data : FormSnapshot) (store : StoreState) (m : String),
      store.readable →
      (∀ e ∈ storeEntries store, e.data.email ≠ data.email) →
      env.setFail = some m →
      fallbackToLocalStorage env data store =
        (.ok { success := false, message := some ("Failed to save waitlist entry: " ++ m) },
         store)) :=
  ⟨fun env data raw m => fallback_corrupt env data raw m,
   fun subs raw m => runFallbacks_corrupt subs raw m,
   fun env data store m h1 h2 h3 => fallback_setfail env data store h1 h2 m h3⟩

/-- C10 witness: a corrupted stored value fails every fallback submission
with the prefixed message and stays corrupted; a quota error on `setItem`
fails with the prefixed message and leaves the store unchanged. -/
theorem corrupted_store_fallback_fails_witness :
    fallbackToLocalStorage sampleFallbackEnv sampleSnapshot
        (.corrupt "oops-not-json" "Unexpected token") =
      (.ok { success := false,
             message := some ("Failed to save waitlist entry: " ++ "Unexpected token") },
       .corrupt "oops-not-json" "Unexpected token") ∧
    runFallbacks [(sampleFallbackEnv, sampleSnapshot)]
        (.corrupt "oops-not-json" "Unexpected token") =
      .corrupt "oops-not-json" "Unexpected token" ∧
    fallbackToLocalStorage { idNow := "1", nowIso := "t", setFail := some "QuotaExceededError" }
        sampleSnapshot .absent =
      (.ok { success := false,
             message := some ("Failed to save waitlist entry: " ++ "QuotaExceededError") },
       .absent) :=
  ⟨corrupted_store_fallback_fails.1 sampleFallbackEnv sampleSnapshot "oops-not-json"
     "Unexpected token",
   corrupted_store_fallback_fails.2.1 [(sampleFallbackEnv, sampleSnapshot)] "oops-not-json"
     "Unexpected token",
   corrupted_store_fallback_fails.2.2 { idNow := "1", nowIso := "t", setFail := some "QuotaExceededError" }
     sampleSnapshot .absent "QuotaExceededError" trivial (by decide) rfl⟩

end EVO

